import Mathlib

/-!
Verification development for tshape_analysis (src/shape_analysis.py).

The script's three numeric analyzers (procrustes, curvature_index,
fourier_analysis) are embedded over the real numbers.  The batch driver
main() is embedded over an explicit scalar type that models the IEEE
special values its NaN test (np.isnan(np.sum(...))) can observe; the
driver never inspects the numbers produced by the analyzers (it only
copies them into output rows), so the driver is embedded parametrically
in the three analyzer callbacks.  Python iterates the subject-id set in
unspecified hash order, so the iteration order is an explicit argument.
An uncaught exception (IOError for an odd column count or a malformed
rest file, AssertionError for a duplicated rest file, IndexError for a
too-short Fourier spectrum) aborts the entire run; the rows already
written to the csv before the exception are kept.
-/

/-- IEEE-style scalar as the batch driver sees it: a finite value (an
arbitrary-precision rational stands in for the float), an infinity of
either sign, or NaN. -/
inductive Val where
  | fin : ℚ → Val
  | pinf : Val
  | ninf : Val
  | nan : Val
deriving DecidableEq

/-- IEEE addition on Val, as far as the driver's NaN test can observe:
NaN absorbs everything, opposite infinities give NaN, an infinity
absorbs finite values. -/
def Val.add : Val → Val → Val
  | .nan, _ => .nan
  | _, .nan => .nan
  | .pinf, .ninf => .nan
  | .ninf, .pinf => .nan
  | .pinf, _ => .pinf
  | _, .pinf => .pinf
  | .ninf, _ => .ninf
  | _, .ninf => .ninf
  | .fin a, .fin b => .fin (a + b)

/-- A 2-D numeric table as delivered by np.genfromtxt: a list of rows. -/
abbrev Table := List (List Val)

/-- data.shape[1]: the column count of a (rectangular) table. -/
def ncols (t : Table) : ℕ := (t.headD []).length

/-- data[:, j:j+2]: the two-column slice starting at column j. -/
def sliceT (t : Table) (j : ℕ) : Table := t.map (fun r => (r.drop j).take 2)

/-- All entries of a table, as np.sum traverses them. -/
def tableVals (t : Table) : List Val := t.flatten

/-- np.sum over a list of scalars. -/
def sumVals (l : List Val) : Val := l.foldr Val.add (Val.fin 0)

/-- np.isnan on a scalar. -/
def isNan : Val → Bool
  | .nan => true
  | _ => false

/-- One output record of the driver (one data row of
shape_analysis_data_out.csv, source line 186). -/
structure Row where
  id : String
  symbol : String
  rep : ℕ
  mci : Val
  proc : Val
  real1 : Val
  imag1 : Val
  mod1 : Val
  real2 : Val
  imag2 : Val
  mod2 : Val
  real3 : Val
  imag3 : Val
  mod3 : Val
deriving DecidableEq

/-- The uncaught exceptions the driver can die of: IOError for an odd
column count (line 164), IOError for a rest file without exactly two
columns (line 150), AssertionError for more than one rest file
(line 153), IndexError for a Fourier spectrum shorter than four bins
(line 186). -/
inductive Err where
  | oddCols : Err
  | restCols : Err
  | assertFail : Err
  | idxOut : Err
deriving DecidableEq

/-- The three analyzers as the driver calls them.  Their numeric outputs
are never inspected by the driver, so the driver is embedded
parametrically in them: pF is procrustes(rdata, slice), cF is
curvature_index(slice), fF is fourier_analysis(slice) returning the
(real, imag, modulus) lists. -/
structure Cfg where
  pF : Table → Table → Val
  cF : Table → Val
  fF : Table → List Val × List Val × List Val

/-- writer.writerow([...]): the AnalysisRow assembled for repetition rep
of a file (source line 186).  With no rest shape the procrustes field is
the literal sentinel 0 (source line 180). -/
def mkRow (cfg : Cfg) (idn sym : String) (rdata : Option Table) (t : Table) (rep : ℕ) : Row :=
  let sl := sliceT t (2 * rep)
  let f := cfg.fF sl
  let z := Val.fin 0
  { id := idn, symbol := sym, rep := rep, mci := cfg.cF sl,
    proc := match rdata with | some r => cfg.pF r sl | none => Val.fin 0,
    real1 := f.1.getD 1 z, imag1 := f.2.1.getD 1 z, mod1 := f.2.2.getD 1 z,
    real2 := f.1.getD 2 z, imag2 := f.2.1.getD 2 z, mod2 := f.2.2.getD 2 z,
    real3 := f.1.getD 3 z, imag3 := f.2.1.getD 3 z, mod3 := f.2.2.getD 3 z }

/-- The per-repetition loop (source lines 168-186): a slice whose entry
sum is NaN is skipped; otherwise one Row is emitted, provided the four
Fourier bins read by writerow are in bounds (rl[3], im[3], mod[3]),
else the run dies with an IndexError. -/
def repLoop (cfg : Cfg) (idn sym : String) (rdata : Option Table) (t : Table) :
    List ℕ → List Row × Option Err
  | [] => ([], none)
  | rep :: rest =>
    let sl := sliceT t (2 * rep)
    if isNan (sumVals (tableVals sl)) then repLoop cfg idn sym rdata t rest
    else if 3 < (cfg.fF sl).1.length ∧ 3 < (cfg.fF sl).2.1.length ∧ 3 < (cfg.fF sl).2.2.length then
      let p := repLoop cfg idn sym rdata t rest
      (mkRow cfg idn sym rdata t rep :: p.1, p.2)
    else ([], some Err.idxOut)

/-- The per-file loop of one subject (source lines 156-186): the rest
file is skipped, an odd column count raises IOError (line 164), else
the repetitions of the file are processed in column order. -/
def fileLoop (cfg : Cfg) (idn : String) (rdata : Option Table) :
    List (String × Table) → List Row × Option Err
  | [] => ([], none)
  | (sym, t) :: rest =>
    if sym == "rest" then fileLoop cfg idn rdata rest
    else if ncols t % 2 ≠ 0 then ([], some Err.oddCols)
    else
      let p := repLoop cfg idn sym rdata t (List.range (ncols t / 2))
      match p.2 with
      | some e => (p.1, some e)
      | none =>
        let q := fileLoop cfg idn rdata rest
        (p.1 ++ q.1, q.2)

/-- Rest lookup and processing of one subject (source lines 139-186):
no rest file means no Procrustes; exactly one rest file must have
exactly two columns or IOError (line 150); more than one rest file hits
assert False (line 153). -/
def processId (cfg : Cfg) (idn : String) (curFiles : List (String × Table)) :
    List Row × Option Err :=
  match curFiles.filter (fun f => f.1 == "rest") with
  | [] => fileLoop cfg idn none curFiles
  | [rf] =>
    if ncols rf.2 ≠ 2 then ([], some Err.restCols)
    else fileLoop cfg idn (some rf.2) curFiles
  | _ => ([], some Err.assertFail)

/-- The (symbol, table) pairs of the files belonging to one subject id,
in input order (source line 136). -/
def filesFor (idn : String) (files : List (String × String × Table)) :
    List (String × Table) :=
  (files.filter (fun f => f.1 == idn)).map (fun f => f.2)

/-- main()'s subject loop (source lines 131-186) over an explicit
iteration order of the subject-id set.  An uncaught exception aborts the
whole run; rows already written are kept. -/
def runMain (cfg : Cfg) (files : List (String × String × Table)) :
    List String → List Row × Option Err
  | [] => ([], none)
  | idn :: rest =>
    let p := processId cfg idn (filesFor idn files)
    match p.2 with
    | some e => (p.1, some e)
    | none =>
      let q := runMain cfg files rest
      (p.1 ++ q.1, q.2)

/-! Concrete fixtures for closed test batches.  The driver's control
flow never depends on the values the analyzer callbacks return, so the
callbacks below return arbitrary constants; the tables have eight
contour points, enough for every analyzer of the source to run. -/

/-- A four-entry spectrum component, long enough for writerow. -/
def L4 : List Val := [Val.fin 0, Val.fin 1, Val.fin 2, Val.fin 3]

/-- Constant analyzer callbacks for closed test batches. -/
def cfgc : Cfg := ⟨fun _ _ => Val.fin 9, fun _ => Val.fin 5, fun _ => (L4, L4, L4)⟩

/-- Subject A, symbol TT: a well-formed one-repetition record. -/
def tblATT : Table :=
  [[Val.fin 0, Val.fin 0], [Val.fin 1, Val.fin 1], [Val.fin 2, Val.fin 0],
   [Val.fin 3, Val.fin 2], [Val.fin 4, Val.fin 0], [Val.fin 5, Val.fin 3],
   [Val.fin 6, Val.fin 0], [Val.fin 7, Val.fin 1]]

/-- Subject A, symbol TP: an ill-formed record with three columns. -/
def tblATP : Table :=
  [[Val.fin 0, Val.fin 1, Val.fin 2], [Val.fin 1, Val.fin 1, Val.fin 2],
   [Val.fin 2, Val.fin 1, Val.fin 2], [Val.fin 3, Val.fin 1, Val.fin 2],
   [Val.fin 4, Val.fin 1, Val.fin 2], [Val.fin 5, Val.fin 1, Val.fin 2],
   [Val.fin 6, Val.fin 1, Val.fin 2], [Val.fin 7, Val.fin 1, Val.fin 2]]

/-- Subject B, symbol TT: a well-formed one-repetition record. -/
def tblBTT : Table :=
  [[Val.fin 0, Val.fin 1], [Val.fin 1, Val.fin 0], [Val.fin 2, Val.fin 2],
   [Val.fin 3, Val.fin 1], [Val.fin 4, Val.fin 3], [Val.fin 5, Val.fin 0],
   [Val.fin 6, Val.fin 1], [Val.fin 7, Val.fin 2]]

/-- A one-repetition record holding a positive infinity (and no NaN). -/
def tblInf : Table :=
  [[Val.pinf, Val.fin 0], [Val.fin 1, Val.fin 1], [Val.fin 2, Val.fin 0],
   [Val.fin 3, Val.fin 1], [Val.fin 4, Val.fin 0], [Val.fin 5, Val.fin 1],
   [Val.fin 6, Val.fin 0], [Val.fin 7, Val.fin 1]]

/-- A one-repetition record holding a NaN. -/
def tblNan : Table :=
  [[Val.nan, Val.fin 0], [Val.fin 1, Val.fin 1], [Val.fin 2, Val.fin 0],
   [Val.fin 3, Val.fin 1], [Val.fin 4, Val.fin 0], [Val.fin 5, Val.fin 1],
   [Val.fin 6, Val.fin 0], [Val.fin 7, Val.fin 1]]

/-- A rest record with the mandatory two columns. -/
def tblRest2 : Table := [[Val.fin 0, Val.fin 0], [Val.fin 1, Val.fin 1]]

/-- A malformed rest record with three columns. -/
def tblRest3 : Table := [[Val.fin 0, Val.fin 0, Val.fin 0]]

/-- The batch of end-to-end scenario C: subject A has a good record and
an odd-column record, subject B has a good record. -/
def files1 : List (String × String × Table) :=
  [("A", "TT", tblATT), ("A", "TP", tblATP), ("B", "TT", tblBTT)]

/-- A batch whose only repetition holds a positive infinity. -/
def files2 : List (String × String × Table) := [("P", "TT", tblInf)]

noncomputable section

/-- np.mean of a list of reals. -/
def meanList (l : List ℝ) : ℝ := l.sum / l.length

/-- Centering a shape at its centroid (source lines 44-45). -/
def centerShape (s : List (ℝ × ℝ)) : List (ℝ × ℝ) :=
  s.map (fun p => (p.1 - meanList (s.map Prod.fst), p.2 - meanList (s.map Prod.snd)))

/-- Root-mean-square radius, the scale divisor of source lines 48-49. -/
def rmsScale (s : List (ℝ × ℝ)) : ℝ :=
  Real.sqrt ((s.map (fun p => p.1 ^ 2 + p.2 ^ 2)).sum / s.length)

/-- Centering then scaling to unit RMS radius (source lines 44-49). -/
def normalizeShape (s : List (ℝ × ℝ)) : List (ℝ × ℝ) :=
  (centerShape s).map
    (fun p => (p.1 / rmsScale (centerShape s), p.2 / rmsScale (centerShape s)))

/-- math.atan2 y x, the principal argument of x + i y. -/
def atan2 (y x : ℝ) : ℝ := Complex.arg ⟨x, y⟩

/-- Numerator of the optimal angle (source line 52), over paired points
of the already-normalized shapes. -/
def corrNum (a1 b1 : List (ℝ × ℝ)) : ℝ :=
  ((a1.zip b1).map (fun q => q.2.1 * q.1.2 - q.2.2 * q.1.1)).sum

/-- Denominator of the optimal angle (source line 53). -/
def corrDen (a1 b1 : List (ℝ × ℝ)) : ℝ :=
  ((a1.zip b1).map (fun q => q.2.1 * q.1.1 + q.2.2 * q.1.2)).sum

/-- Applying the 2x2 matrix of source line 57 to one point. -/
def rotatePt (θ : ℝ) (p : ℝ × ℝ) : ℝ × ℝ :=
  (Real.cos θ * p.1 - Real.sin θ * p.2, Real.sin θ * p.1 + Real.cos θ * p.2)

/-- procrustes(a, b) of source lines 41-61. -/
def procrustes (a b : List (ℝ × ℝ)) : ℝ :=
  let a1 := normalizeShape a
  let b1 := normalizeShape b
  let θ := atan2 (corrNum a1 b1) (corrDen a1 b1)
  Real.sqrt (((a1.zip (b1.map (rotatePt θ))).map
    (fun q => (q.1.1 - q.2.1) ^ 2 + (q.1.2 - q.2.2) ^ 2)).sum)

/-- Translation of every point by a fixed vector. -/
def translateShape (v : ℝ × ℝ) (s : List (ℝ × ℝ)) : List (ℝ × ℝ) :=
  s.map (fun p => (p.1 + v.1, p.2 + v.2))

/-- Uniform scaling of every point about the origin. -/
def scaleShape (c : ℝ) (s : List (ℝ × ℝ)) : List (ℝ × ℝ) :=
  s.map (fun p => (c * p.1, c * p.2))

/-- Turning every point by the angle φ about the origin. -/
def rotateShape (φ : ℝ) (s : List (ℝ × ℝ)) : List (ℝ × ℝ) := s.map (rotatePt φ)

/-- A shape is non-degenerate when its centered RMS radius is nonzero. -/
def nondegenerate (s : List (ℝ × ℝ)) : Prop := rmsScale (centerShape s) ≠ 0

/-- Sum of squared point norms. -/
def sumSq (l : List (ℝ × ℝ)) : ℝ := (l.map (fun p => p.1 ^ 2 + p.2 ^ 2)).sum

/-- np.npGradient: central differences inside, one-sided at the ends. -/
def npGradient (x : List ℝ) : List ℝ :=
  (List.range x.length).map (fun i =>
    if x.length ≤ 1 then 0
    else if i = 0 then x.getD 1 0 - x.getD 0 0
    else if i = x.length - 1 then x.getD i 0 - x.getD (i - 1) 0
    else (x.getD (i + 1) 0 - x.getD (i - 1) 0) / 2)

/-- np.arctan2(np.npGradient(y), np.npGradient(x)) (source line 90). -/
def tangentAngles (data : List (ℝ × ℝ)) : List ℝ :=
  (List.range data.length).map (fun i =>
    atan2 ((npGradient (data.map Prod.snd)).getD i 0) ((npGradient (data.map Prod.fst)).getD i 0))

/-- np.fft.rfft: the half-spectrum of a real signal, bins 0..⌊n/2⌋. -/
def rfft (x : List ℝ) : List ℂ :=
  (List.range (x.length / 2 + 1)).map (fun (k : ℕ) =>
    ((List.range x.length).map (fun (j : ℕ) =>
      (x.getD j 0 : ℂ) *
        Complex.exp (-2 * (Real.pi : ℂ) * Complex.I * (j : ℂ) * (k : ℂ) / (x.length : ℂ)))).sum)

/-- fourier_analysis of source lines 88-98. -/
def fourier_analysis (data : List (ℝ × ℝ)) : List ℝ × List ℝ × List ℝ :=
  ((rfft (tangentAngles data)).map Complex.re,
   (rfft (tangentAngles data)).map Complex.im,
   (rfft (tangentAngles data)).map Complex.abs)

/-- Signed curvature (dx ddy - dy ddx)/(dx^2 + dy^2)^1.5 of source
lines 67-71, with no guard at zero local speed. -/
def curvatureList (data : List (ℝ × ℝ)) : List ℝ :=
  (List.range data.length).map (fun i =>
    ((npGradient (data.map Prod.fst)).getD i 0 *
        (npGradient (npGradient (data.map Prod.snd))).getD i 0 -
      (npGradient (data.map Prod.snd)).getD i 0 *
        (npGradient (npGradient (data.map Prod.fst))).getD i 0) /
      ((npGradient (data.map Prod.fst)).getD i 0 ^ 2 +
        (npGradient (data.map Prod.snd)).getD i 0 ^ 2) ^ (1.5 : ℝ))

/-- np.cumsum. -/
def cumsum (l : List ℝ) : List ℝ :=
  (List.range l.length).map (fun i => (l.take (i + 1)).sum)

/-- Cumulative arc length with a leading 0 (source lines 73-74). -/
def arcLength (data : List (ℝ × ℝ)) : List ℝ :=
  0 :: cumsum ((data.zip data.tail).map (fun q =>
    Real.sqrt ((q.2.1 - q.1.1) ^ 2 + (q.2.2 - q.1.2) ^ 2)))

/-- Coefficient list of the product of two polynomials. -/
def convC (p q : List ℂ) : List ℂ :=
  (List.range (p.length + q.length - 1)).map (fun k =>
    ((List.range (k + 1)).map (fun i => p.getD i 0 * q.getD (k - i) 0)).sum)

/-- np.poly: monic coefficient list from a list of roots. -/
def polyFromRoots (roots : List ℂ) : List ℂ :=
  roots.foldl (fun acc r => convC acc [1, -r]) [1]

/-- The five analog Butterworth prototype poles of buttap(5), scaled by
the pre-warped cutoff 4 tan(pi/8) of butter(5, 0.25). -/
def butterAnalogPoles : List ℂ :=
  (List.range 5).map (fun (m : ℕ) =>
    ((4 * Real.tan (Real.pi / 8) : ℝ) : ℂ) *
      (-Complex.exp (Complex.I * (Real.pi : ℂ) * (2 * ((m : ℂ) + 1) + 4) / 10)))

/-- The digital poles after the bilinear transform with fs = 2. -/
def butterDigitalPoles : List ℂ :=
  butterAnalogPoles.map (fun p => (4 + p) / (4 - p))

/-- The digital gain: analog gain (4 tan(pi/8))^5 over the product of
(4 - p) over the analog poles. -/
def butterGain : ℂ :=
  ((4 * Real.tan (Real.pi / 8) : ℝ) : ℂ) ^ 5 /
    (butterAnalogPoles.map (fun p => 4 - p)).prod

/-- Numerator coefficients of butter(5, 0.25): gain times (z + 1)^5. -/
def butterB : List ℝ :=
  (polyFromRoots (List.replicate 5 (-1 : ℂ))).map (fun c => (butterGain * c).re)

/-- Denominator coefficients of butter(5, 0.25): monic from the poles. -/
def butterA : List ℝ := (polyFromRoots butterDigitalPoles).map Complex.re

/-- One step of scipy.signal.lfilter in transposed direct form II. -/
def lfilterStep (b a : List ℝ) (st : List ℝ) (xn : ℝ) : ℝ × List ℝ :=
  (b.getD 0 0 * xn + st.getD 0 0,
   (List.range st.length).map (fun i =>
     b.getD (i + 1) 0 * xn + st.getD (i + 1) 0 -
       a.getD (i + 1) 0 * (b.getD 0 0 * xn + st.getD 0 0)))

/-- scipy.signal.lfilter with initial state zi. -/
def lfilterList (b a : List ℝ) (zi : List ℝ) (x : List ℝ) : List ℝ :=
  (x.foldl (fun acc xn =>
    ((lfilterStep b a acc.2 xn).1 :: acc.1, (lfilterStep b a acc.2 xn).2))
    (([] : List ℝ), zi)).1.reverse

/-- scipy.signal.lfilter_zi: the steady state of the filter, from the
companion-form linear system (I - A^T) zi = B. -/
def companionT (a b : List ℝ) :
    Matrix (Fin (max a.length b.length - 1)) (Fin (max a.length b.length - 1)) ℝ :=
  fun i j =>
    (if (j : ℕ) = 0 then -(a.getD ((i : ℕ) + 1) 0) else 0) +
      (if (i : ℕ) + 1 = (j : ℕ) then 1 else 0)

/-- scipy.signal.lfilter_zi continued: solve (I - A^T) zi = B. -/
def lfilterZi (b a : List ℝ) : List ℝ :=
  List.ofFn
    (Matrix.mulVec
      (((1 : Matrix (Fin (max a.length b.length - 1)) (Fin (max a.length b.length - 1)) ℝ) -
          companionT a b)⁻¹)
      (fun i => b.getD ((i : ℕ) + 1) 0 - a.getD ((i : ℕ) + 1) 0 * b.getD 0 0))

/-- scipy's odd extension of a signal by m points at both ends. -/
def oddExt (x : List ℝ) (m : ℕ) : List ℝ :=
  (((x.drop 1).take m).reverse.map (fun v => 2 * x.getD 0 0 - v)) ++ x ++
    (((x.reverse.drop 1).take m).map (fun v => 2 * x.getD (x.length - 1) 0 - v))

/-- scipy.signal.filtfilt with its defaults: odd padding of length
3 max(len(a), len(b)), requiring an input strictly longer than the pad
(else ValueError, modeled as none), then a forward and a backward pass
with matched initial states. -/
def filtfilt (b a : List ℝ) (x : List ℝ) : Option (List ℝ) :=
  if x.length ≤ 3 * max a.length b.length then none
  else
    let ext := oddExt x (3 * max a.length b.length)
    let zi := lfilterZi b a
    let y1 := (lfilterList b a (zi.map (fun w => w * ext.getD 0 0)) ext).reverse
    let y2 := (lfilterList b a (zi.map (fun w => w * y1.getD 0 0)) y1).reverse
    some ((y2.drop (3 * max a.length b.length)).take
      (y2.length - 2 * (3 * max a.length b.length)))

/-- One interval pair of scipy.integrate.simps on a non-uniform grid:
the exact integral of the parabola through three samples. -/
def simpsCore (y x : List ℝ) : ℝ :=
  ((List.range ((y.length - 1) / 2)).map (fun m =>
    (x.getD (2 * m + 1) 0 - x.getD (2 * m) 0 +
        (x.getD (2 * m + 2) 0 - x.getD (2 * m + 1) 0)) / 6 *
      (y.getD (2 * m) 0 *
          (2 - (x.getD (2 * m + 2) 0 - x.getD (2 * m + 1) 0) /
            (x.getD (2 * m + 1) 0 - x.getD (2 * m) 0)) +
        y.getD (2 * m + 1) 0 *
          ((x.getD (2 * m + 2) 0 - x.getD (2 * m) 0) ^ 2 /
            ((x.getD (2 * m + 1) 0 - x.getD (2 * m) 0) *
              (x.getD (2 * m + 2) 0 - x.getD (2 * m + 1) 0))) +
        y.getD (2 * m + 2) 0 *
          (2 - (x.getD (2 * m + 1) 0 - x.getD (2 * m) 0) /
            (x.getD (2 * m + 2) 0 - x.getD (2 * m + 1) 0))))).sum

/-- scipy.integrate.simps(y, x): composite Simpson, averaging the two
trapezoid-capped variants when the sample count is even. -/
def simpsInt (y x : List ℝ) : ℝ :=
  if y.length % 2 = 1 then simpsCore y x
  else
    (simpsCore y.dropLast x.dropLast +
        (x.getD (y.length - 1) 0 - x.getD (y.length - 2) 0) *
          (y.getD (y.length - 1) 0 + y.getD (y.length - 2) 0) / 2 +
      simpsCore (y.drop 1) (x.drop 1) +
        (x.getD 1 0 - x.getD 0 0) * (y.getD 1 0 + y.getD 0 0) / 2) / 2

/-- curvature_index of source lines 64-85.  scipy's filtfilt refuses a
signal not longer than its default pad length, so the result is an
Option: none models the raised ValueError. -/
def curvature_index (data : List (ℝ × ℝ)) : Option ℝ :=
  (filtfilt butterB butterA
    ((curvatureList data).reverse ++ curvatureList data ++ (curvatureList data).reverse)).map
    (fun f0 =>
      simpsInt (((f0.drop data.length).take (f0.length - 2 * data.length)).map (fun v => |v|))
        (arcLength data))

/-- The four-point shape of the N = 4 Fourier edge case. -/
def shape4 : List (ℝ × ℝ) := [(0, 0), (1, 0), (1, 1), (0, 1)]

/-- A five-point shape, below the filtfilt length bound. -/
def shape5 : List (ℝ × ℝ) := [(0, 0), (1, 0), (2, 1), (1, 2), (0, 1)]

/-- A concrete non-degenerate shape. -/
def shape0 : List (ℝ × ℝ) := [(1, 0), (-1, 0), (0, 1), (0, -1)]

end

/-! Lemmas about the driver. -/

/-- The rational total of the finite entries of a list. -/
def ratSum (l : List Val) : ℚ :=
  (l.map (fun v => match v with | .fin q => q | _ => 0)).sum

/-- The Fourier triple of a slice is long enough for writerow. -/
def fourGood (f : List Val × List Val × List Val) : Prop :=
  3 < f.1.length ∧ 3 < f.2.1.length ∧ 3 < f.2.2.length

lemma sumVals_classify (l : List Val) :
    sumVals l =
      if Val.nan ∈ l ∨ (Val.pinf ∈ l ∧ Val.ninf ∈ l) then Val.nan
      else if Val.pinf ∈ l then Val.pinf
      else if Val.ninf ∈ l then Val.ninf
      else Val.fin (ratSum l) := by
  induction l with
  | nil => simp [sumVals, ratSum]
  | cons x xs ih =>
    have hs : sumVals (x :: xs) = Val.add x (sumVals xs) := rfl
    rw [hs, ih]
    rcases x with q | _ | _ | _ <;>
      simp only [List.mem_cons, reduceCtorEq, false_or, true_or, or_true, true_and,
        ratSum, List.map_cons, List.sum_cons] <;>
      split_ifs <;>
      simp_all [Val.add, ratSum]

/-- np.isnan(np.sum(l)) holds exactly when l holds a NaN or infinities
of both signs. -/
lemma isNan_sumVals (l : List Val) :
    isNan (sumVals l) = true ↔ (Val.nan ∈ l ∨ (Val.pinf ∈ l ∧ Val.ninf ∈ l)) := by
  rw [sumVals_classify]
  split_ifs with h1 h2 h3 <;> simp [isNan, h1]

/-- With in-bounds Fourier output, the repetition loop emits one row per
slice whose entry sum is not NaN, in repetition order, and never dies. -/
lemma repLoop_eq (cfg : Cfg) (idn sym : String) (rdata : Option Table) (t : Table)
    (hF : ∀ sl, fourGood (cfg.fF sl)) (reps : List ℕ) :
    repLoop cfg idn sym rdata t reps =
      ((reps.filter
          (fun rep => !isNan (sumVals (tableVals (sliceT t (2 * rep)))))).map
        (mkRow cfg idn sym rdata t), none) := by
  induction reps with
  | nil => simp [repLoop]
  | cons rep rest ih =>
    by_cases h : isNan (sumVals (tableVals (sliceT t (2 * rep))))
    · simp [repLoop, h, ih, List.filter_cons]
    · have hf := hF (sliceT t (2 * rep))
      simp [repLoop, h, hf.1, hf.2.1, hf.2.2, ih, List.filter_cons]

/-! Step equations for the driver's loops. -/

lemma repLoop_cons_skip (cfg : Cfg) (idn sym : String) (rdata : Option Table) (t : Table)
    (rep : ℕ) (rest : List ℕ)
    (h : isNan (sumVals (tableVals (sliceT t (2 * rep)))) = true) :
    repLoop cfg idn sym rdata t (rep :: rest) = repLoop cfg idn sym rdata t rest := by
  simp [repLoop, h]

lemma repLoop_cons_emit (cfg : Cfg) (idn sym : String) (rdata : Option Table) (t : Table)
    (rep : ℕ) (rest : List ℕ)
    (h : isNan (sumVals (tableVals (sliceT t (2 * rep)))) = false)
    (hf : fourGood (cfg.fF (sliceT t (2 * rep)))) :
    repLoop cfg idn sym rdata t (rep :: rest) =
      (mkRow cfg idn sym rdata t rep :: (repLoop cfg idn sym rdata t rest).1,
        (repLoop cfg idn sym rdata t rest).2) := by
  simp only [repLoop]
  rw [if_neg (by simp [h])]
  exact if_pos hf

lemma repLoop_cons_err (cfg : Cfg) (idn sym : String) (rdata : Option Table) (t : Table)
    (rep : ℕ) (rest : List ℕ)
    (h : isNan (sumVals (tableVals (sliceT t (2 * rep)))) = false)
    (hf : ¬ fourGood (cfg.fF (sliceT t (2 * rep)))) :
    repLoop cfg idn sym rdata t (rep :: rest) = ([], some Err.idxOut) := by
  simp only [repLoop]
  rw [if_neg (by simp [h])]
  exact if_neg hf

lemma fileLoop_cons_rest (cfg : Cfg) (idn : String) (rdata : Option Table) (t : Table)
    (rest : List (String × Table)) :
    fileLoop cfg idn rdata (("rest", t) :: rest) = fileLoop cfg idn rdata rest := by
  simp [fileLoop]

lemma fileLoop_cons_odd (cfg : Cfg) (idn : String) (rdata : Option Table) (sym : String)
    (t : Table) (rest : List (String × Table)) (h1 : sym ≠ "rest")
    (h2 : ncols t % 2 ≠ 0) :
    fileLoop cfg idn rdata ((sym, t) :: rest) = ([], some Err.oddCols) := by
  simp only [fileLoop]
  rw [if_neg (by simp [h1]), if_pos h2]

lemma fileLoop_cons_ok (cfg : Cfg) (idn : String) (rdata : Option Table) (sym : String)
    (t : Table) (rest : List (String × Table)) (h1 : sym ≠ "rest")
    (h2 : ncols t % 2 = 0)
    (h3 : (repLoop cfg idn sym rdata t (List.range (ncols t / 2))).2 = none) :
    fileLoop cfg idn rdata ((sym, t) :: rest) =
      ((repLoop cfg idn sym rdata t (List.range (ncols t / 2))).1 ++
          (fileLoop cfg idn rdata rest).1,
        (fileLoop cfg idn rdata rest).2) := by
  simp only [fileLoop]
  rw [if_neg (by simp [h1]), if_neg (by simp [h2])]
  rw [h3]

lemma fileLoop_cons_err (cfg : Cfg) (idn : String) (rdata : Option Table) (sym : String)
    (t : Table) (rest : List (String × Table)) (e : Err) (h1 : sym ≠ "rest")
    (h2 : ncols t % 2 = 0)
    (h3 : (repLoop cfg idn sym rdata t (List.range (ncols t / 2))).2 = some e) :
    fileLoop cfg idn rdata ((sym, t) :: rest) =
      ((repLoop cfg idn sym rdata t (List.range (ncols t / 2))).1, some e) := by
  simp only [fileLoop]
  rw [if_neg (by simp [h1]), if_neg (by simp [h2])]
  rw [h3]

lemma processId_noRest (cfg : Cfg) (idn : String) (curFiles : List (String × Table))
    (h : curFiles.filter (fun f => f.1 == "rest") = []) :
    processId cfg idn curFiles = fileLoop cfg idn none curFiles := by
  simp only [processId]
  rw [h]

lemma processId_oneRest (cfg : Cfg) (idn : String) (curFiles : List (String × Table))
    (rf : String × Table) (h : curFiles.filter (fun f => f.1 == "rest") = [rf]) :
    processId cfg idn curFiles =
      if ncols rf.2 ≠ 2 then ([], some Err.restCols)
      else fileLoop cfg idn (some rf.2) curFiles := by
  simp only [processId]
  rw [h]

lemma processId_multiRest (cfg : Cfg) (idn : String) (curFiles : List (String × Table))
    (a b : String × Table) (l : List (String × Table))
    (h : curFiles.filter (fun f => f.1 == "rest") = a :: b :: l) :
    processId cfg idn curFiles = ([], some Err.assertFail) := by
  simp only [processId]
  rw [h]

lemma runMain_cons_err (cfg : Cfg) (files : List (String × String × Table)) (idn : String)
    (rest : List String) (e : Err)
    (h : (processId cfg idn (filesFor idn files)).2 = some e) :
    runMain cfg files (idn :: rest) =
      ((processId cfg idn (filesFor idn files)).1, some e) := by
  simp only [runMain]
  rw [h]

lemma runMain_cons_ok (cfg : Cfg) (files : List (String × String × Table)) (idn : String)
    (rest : List String)
    (h : (processId cfg idn (filesFor idn files)).2 = none) :
    runMain cfg files (idn :: rest) =
      ((processId cfg idn (filesFor idn files)).1 ++ (runMain cfg files rest).1,
        (runMain cfg files rest).2) := by
  simp only [runMain]
  rw [h]

/-- A subject with no rest record: the per-repetition results do not
depend on the Procrustes callback, and every emitted row carries the
sentinel 0 in its procrustes field. -/
lemma repLoop_noRest (p1 p2 : Table → Table → Val) (c : Table → Val)
    (f4 : Table → List Val × List Val × List Val) (idn sym : String) (t : Table)
    (reps : List ℕ) :
    repLoop ⟨p1, c, f4⟩ idn sym none t reps = repLoop ⟨p2, c, f4⟩ idn sym none t reps ∧
    ∀ r ∈ (repLoop ⟨p1, c, f4⟩ idn sym none t reps).1, r.proc = Val.fin 0 := by
  induction reps with
  | nil => simp [repLoop]
  | cons rep rest ih =>
    rcases h : isNan (sumVals (tableVals (sliceT t (2 * rep)))) with _ | _
    · by_cases hf : fourGood ((⟨p1, c, f4⟩ : Cfg).fF (sliceT t (2 * rep)))
      · rw [repLoop_cons_emit ⟨p1, c, f4⟩ idn sym none t rep rest h hf,
          repLoop_cons_emit ⟨p2, c, f4⟩ idn sym none t rep rest h hf, ih.1]
        refine ⟨rfl, ?_⟩
        intro r hr
        rcases List.mem_cons.1 hr with hr | hr
        · subst hr; rfl
        · rw [← ih.1] at hr
          exact ih.2 r hr
      · rw [repLoop_cons_err ⟨p1, c, f4⟩ idn sym none t rep rest h hf,
          repLoop_cons_err ⟨p2, c, f4⟩ idn sym none t rep rest h hf]
        simp
    · rw [repLoop_cons_skip ⟨p1, c, f4⟩ idn sym none t rep rest h,
        repLoop_cons_skip ⟨p2, c, f4⟩ idn sym none t rep rest h]
      exact ih

/-- The per-file loop of a subject with no rest record, likewise. -/
lemma fileLoop_noRest (p1 p2 : Table → Table → Val) (c : Table → Val)
    (f4 : Table → List Val × List Val × List Val) (idn : String)
    (fs : List (String × Table)) :
    fileLoop ⟨p1, c, f4⟩ idn none fs = fileLoop ⟨p2, c, f4⟩ idn none fs ∧
    ∀ r ∈ (fileLoop ⟨p1, c, f4⟩ idn none fs).1, r.proc = Val.fin 0 := by
  induction fs with
  | nil => simp [fileLoop]
  | cons ft rest ih =>
    rcases ft with ⟨sym, t⟩
    by_cases hsym : sym = "rest"
    · subst hsym
      rw [fileLoop_cons_rest, fileLoop_cons_rest]
      exact ih
    · by_cases hodd : ncols t % 2 ≠ 0
      · rw [fileLoop_cons_odd _ _ _ _ _ _ hsym hodd, fileLoop_cons_odd _ _ _ _ _ _ hsym hodd]
        simp
      · have h2 : ncols t % 2 = 0 := by omega
        have hrl := repLoop_noRest p1 p2 c f4 idn sym t (List.range (ncols t / 2))
        rcases hm : (repLoop ⟨p1, c, f4⟩ idn sym none t (List.range (ncols t / 2))).2 with
          _ | e
        · rw [fileLoop_cons_ok _ _ _ _ _ _ hsym h2 hm,
            fileLoop_cons_ok _ _ _ _ _ _ hsym h2 (by rw [← hrl.1]; exact hm), hrl.1, ih.1]
          refine ⟨rfl, ?_⟩
          intro r hr
          rcases List.mem_append.1 hr with hr | hr
          · rw [← hrl.1] at hr
            exact hrl.2 r hr
          · rw [← ih.1] at hr
            exact ih.2 r hr
        · rw [fileLoop_cons_err _ _ _ _ _ _ _ hsym h2 hm,
            fileLoop_cons_err _ _ _ _ _ _ _ hsym h2 (by rw [← hrl.1]; exact hm), hrl.1]
          refine ⟨rfl, ?_⟩
          intro r hr
          rw [← hrl.1] at hr
          exact hrl.2 r hr

/-- An odd-column non-rest file kills the subject at that file: the rows
of the earlier files are kept, nothing after the file is processed. -/
lemma fileLoop_odd_aborts (cfg : Cfg) (idn : String) (rdata : Option Table)
    (hF : ∀ sl, fourGood (cfg.fF sl)) :
    ∀ (pre : List (String × Table)) (sym : String) (t : Table)
      (post : List (String × Table)),
      (∀ f ∈ pre, f.1 = "rest" ∨ ncols f.2 % 2 = 0) → sym ≠ "rest" → ncols t % 2 = 1 →
      fileLoop cfg idn rdata (pre ++ (sym, t) :: post) =
        ((fileLoop cfg idn rdata pre).1, some Err.oddCols) := by
  intro pre
  induction pre with
  | nil =>
    intro sym t post _ hsym hodd
    rw [List.nil_append, fileLoop_cons_odd _ _ _ _ _ _ hsym (by omega)]
    rfl
  | cons ft rest ih =>
    intro sym t post hpre hsym hodd
    rcases ft with ⟨s, u⟩
    by_cases hs : s = "rest"
    · subst hs
      rw [List.cons_append, fileLoop_cons_rest, fileLoop_cons_rest]
      exact ih sym t post (fun f hf => hpre f (List.mem_cons_of_mem _ hf)) hsym hodd
    · have heven : ncols u % 2 = 0 := by
        rcases hpre (s, u) (List.mem_cons_self _ _) with h | h
        · exact absurd h hs
        · exact h
      have hnone : (repLoop cfg idn s rdata u (List.range (ncols u / 2))).2 = none := by
        rw [repLoop_eq cfg idn s rdata u hF]
      rw [List.cons_append, fileLoop_cons_ok _ _ _ _ _ _ hs heven hnone,
        fileLoop_cons_ok _ _ _ _ _ _ hs heven hnone,
        ih sym t post (fun f hf => hpre f (List.mem_cons_of_mem _ hf)) hsym hodd]

/-- When one subject's processing raises and every subject before it in
the iteration order finishes cleanly, the whole run stops there: the
rows already written are kept and later subjects contribute nothing. -/
lemma runMain_aborts (cfg : Cfg) (files : List (String × String × Table)) (e : Err) :
    ∀ (preIds : List String) (idn : String) (postIds : List String),
      (∀ i ∈ preIds, (processId cfg i (filesFor i files)).2 = none) →
      (processId cfg idn (filesFor idn files)).2 = some e →
      runMain cfg files (preIds ++ idn :: postIds) =
        ((runMain cfg files preIds).1 ++ (processId cfg idn (filesFor idn files)).1,
          some e) := by
  intro preIds
  induction preIds with
  | nil =>
    intro idn postIds _ herr
    rw [List.nil_append, runMain_cons_err _ _ _ _ _ herr]
    rfl
  | cons i rest ih =>
    intro idn postIds hclean herr
    have hi : (processId cfg i (filesFor i files)).2 = none :=
      hclean i (List.mem_cons_self _ _)
    rw [List.cons_append, runMain_cons_ok _ _ _ _ hi,
      ih idn postIds (fun j hj => hclean j (List.mem_cons_of_mem _ hj)) herr,
      runMain_cons_ok _ _ _ _ hi]
    simp [List.append_assoc]

/-- C1 (amended): an odd column count in a non-rest record raises a
FormatError at that file and aborts the entire run: the subject keeps
the rows emitted before the error, and no further file of that subject
nor any subject not yet reached in the iteration order contributes an
AnalysisRow. -/
theorem C1_oddcols_aborts_run :
    (∀ cfg : Cfg, (∀ sl, fourGood (cfg.fF sl)) →
      ∀ (idn : String) (rdata : Option Table) (pre : List (String × Table)) (sym : String)
        (t : Table) (post : List (String × Table)),
        (∀ f ∈ pre, f.1 = "rest" ∨ ncols f.2 % 2 = 0) → sym ≠ "rest" → ncols t % 2 = 1 →
        fileLoop cfg idn rdata (pre ++ (sym, t) :: post) =
          ((fileLoop cfg idn rdata pre).1, some Err.oddCols)) ∧
    (∀ (cfg : Cfg) (files : List (String × String × Table)) (e : Err)
      (preIds : List String) (idn : String) (postIds : List String),
      (∀ i ∈ preIds, (processId cfg i (filesFor i files)).2 = none) →
      (processId cfg idn (filesFor idn files)).2 = some e →
      runMain cfg files (preIds ++ idn :: postIds) =
        ((runMain cfg files preIds).1 ++ (processId cfg idn (filesFor idn files)).1,
          some e)) :=
  ⟨fun cfg hF idn rdata pre sym t post h1 h2 h3 =>
      fileLoop_odd_aborts cfg idn rdata hF pre sym t post h1 h2 h3,
    fun cfg files e preIds idn postIds h1 h2 =>
      runMain_aborts cfg files e preIds idn postIds h1 h2⟩

/-- C1 witness: in scenario C with subjects A (one good record, then an
odd three-column record) and B (one good record), the run keeps A's
first row and aborts before B. -/
theorem C1_oddcols_aborts_run_witness :
    fileLoop cfgc "A" none [("TT", tblATT), ("TP", tblATP)] =
      ((fileLoop cfgc "A" none [("TT", tblATT)]).1, some Err.oddCols) ∧
    runMain cfgc files1 ["A", "B"] =
      ((runMain cfgc files1 []).1 ++ (processId cfgc "A" (filesFor "A" files1)).1,
        some Err.oddCols) := by
  constructor
  · exact C1_oddcols_aborts_run.1 cfgc (fun _ => (⟨by decide, by decide, by decide⟩ : fourGood (L4, L4, L4))) "A" none
      [("TT", tblATT)] "TP" tblATP [] (by decide) (by decide) (by decide)
  · exact C1_oddcols_aborts_run.2 cfgc files1 Err.oddCols [] "A" ["B"]
      (fun i hi => absurd hi (List.not_mem_nil i)) (by decide)

/-- C1 counterexample: in that same batch the claim as stated fails:
subject A does contribute a row, and sibling subject B, which alone
would produce one row, contributes none. -/
theorem C1_sibling_processed_cex :
    ¬ (((runMain cfgc files1 ["A", "B"]).1.filter (fun r => r.id == "A")) = [] ∧
       ((runMain cfgc files1 ["A", "B"]).1.filter (fun r => r.id == "B")) =
         (runMain cfgc files1 ["B"]).1 ∧
       (runMain cfgc files1 ["B"]).1 ≠ []) := by decide

/-- C2 (amended): a repetition is skipped (with a warning) exactly when
the sum of its slice entries is NaN, which happens exactly when the
slice holds a NaN value or infinities of both signs; every other
repetition, including one holding only infinities of a single sign,
produces its row, and the skip never aborts sibling repetitions. -/
theorem C2_nan_sum_skip :
    (∀ cfg : Cfg, (∀ sl, fourGood (cfg.fF sl)) →
      ∀ (idn sym : String) (rdata : Option Table) (t : Table),
        repLoop cfg idn sym rdata t (List.range (ncols t / 2)) =
          (((List.range (ncols t / 2)).filter
              (fun rep => !isNan (sumVals (tableVals (sliceT t (2 * rep)))))).map
            (mkRow cfg idn sym rdata t), none)) ∧
    (∀ l : List Val,
      isNan (sumVals l) = true ↔ (Val.nan ∈ l ∨ (Val.pinf ∈ l ∧ Val.ninf ∈ l))) :=
  ⟨fun cfg hF idn sym rdata t => repLoop_eq cfg idn sym rdata t hF _, isNan_sumVals⟩

/-- C2 witness: a record whose single repetition holds a NaN yields no
row and no error. -/
theorem C2_nan_sum_skip_witness :
    repLoop cfgc "Q" "TT" none tblNan (List.range (ncols tblNan / 2)) = ([], none) := by
  rw [C2_nan_sum_skip.1 cfgc (fun _ => (⟨by decide, by decide, by decide⟩ : fourGood (L4, L4, L4))) "Q" "TT" none
    tblNan]
  decide

/-- C2 counterexample: a repetition holding a positive infinity (a
non-finite value) is not skipped: it produces a row, contradicting the
claim that every repetition with a non-finite value is skipped. -/
theorem C2_inf_not_skipped_cex : (runMain cfgc files2 ["P"]).1 ≠ [] := by decide

/-- C6: for a subject with no rest record, the result does not depend on
the Procrustes callback at all (the alignment is never invoked), and
every emitted row carries the sentinel 0 in its procrustes field. -/
theorem C6_no_rest_sentinel :
    ∀ (p1 p2 : Table → Table → Val) (c : Table → Val)
      (f4 : Table → List Val × List Val × List Val) (idn : String)
      (curFiles : List (String × Table)),
      curFiles.filter (fun f => f.1 == "rest") = [] →
      processId ⟨p1, c, f4⟩ idn curFiles = processId ⟨p2, c, f4⟩ idn curFiles ∧
      ∀ r ∈ (processId ⟨p1, c, f4⟩ idn curFiles).1, r.proc = Val.fin 0 := by
  intro p1 p2 c f4 idn curFiles h
  rw [processId_noRest _ _ _ h, processId_noRest _ _ _ h]
  exact fileLoop_noRest p1 p2 c f4 idn curFiles

/-- C6 witness: subject B with its single record and no rest file. -/
theorem C6_no_rest_sentinel_witness :
    processId ⟨fun _ _ => Val.fin 9, fun _ => Val.fin 5, fun _ => (L4, L4, L4)⟩ "B"
        [("TT", tblBTT)] =
      processId ⟨fun _ _ => Val.nan, fun _ => Val.fin 5, fun _ => (L4, L4, L4)⟩ "B"
        [("TT", tblBTT)] ∧
    ∀ r ∈ (processId ⟨fun _ _ => Val.fin 9, fun _ => Val.fin 5, fun _ => (L4, L4, L4)⟩ "B"
        [("TT", tblBTT)]).1, r.proc = Val.fin 0 :=
  C6_no_rest_sentinel _ _ _ _ "B" [("TT", tblBTT)] (by decide)

/-- C7: rest lookup checks: more than one rest record hits the explicit
assert and is fatal; one rest record with a column count other than two
is fatal; one rest record with exactly two columns is accepted and
processing proceeds with it. -/
theorem C7_rest_lookup_checks :
    ∀ (cfg : Cfg) (idn : String) (curFiles : List (String × Table)),
      (∀ (a b : String × Table) (l : List (String × Table)),
        curFiles.filter (fun f => f.1 == "rest") = a :: b :: l →
        processId cfg idn curFiles = ([], some Err.assertFail)) ∧
      (∀ rf : String × Table, curFiles.filter (fun f => f.1 == "rest") = [rf] →
        (ncols rf.2 ≠ 2 → processId cfg idn curFiles = ([], some Err.restCols)) ∧
        (ncols rf.2 = 2 →
          processId cfg idn curFiles = fileLoop cfg idn (some rf.2) curFiles)) := by
  intro cfg idn curFiles
  refine ⟨fun a b l h => processId_multiRest cfg idn curFiles a b l h, fun rf h => ⟨?_, ?_⟩⟩
  · intro hne
    rw [processId_oneRest cfg idn curFiles rf h, if_pos hne]
  · intro he
    rw [processId_oneRest cfg idn curFiles rf h, if_neg (not_not_intro he)]

/-- C7 witness: two rest files trigger the assert, a three-column rest
file is fatal, a two-column rest file is accepted. -/
theorem C7_rest_lookup_checks_witness :
    processId cfgc "P" [("rest", tblRest2), ("rest", tblRest2)] =
      ([], some Err.assertFail) ∧
    processId cfgc "P" [("rest", tblRest3)] = ([], some Err.restCols) ∧
    processId cfgc "P" [("rest", tblRest2)] =
      fileLoop cfgc "P" (some tblRest2) [("rest", tblRest2)] := by
  refine ⟨?_, ?_, ?_⟩
  · exact (C7_rest_lookup_checks cfgc "P" _).1 ("rest", tblRest2) ("rest", tblRest2) []
      (by decide)
  · exact ((C7_rest_lookup_checks cfgc "P" _).2 ("rest", tblRest3) (by decide)).1 (by decide)
  · exact ((C7_rest_lookup_checks cfgc "P" _).2 ("rest", tblRest2) (by decide)).2 (by decide)

/-! Lemmas about the geometric aligner. -/

lemma sum_congr_fun {α : Type} (l : List α) (f g : α → ℝ) (h : ∀ p, f p = g p) :
    (l.map f).sum = (l.map g).sum :=
  congrArg (fun F => (l.map F).sum) (funext h)

lemma sum_map_add {α : Type} (l : List α) (f g : α → ℝ) :
    (l.map (fun x => f x + g x)).sum = (l.map f).sum + (l.map g).sum := by
  induction l with
  | nil => simp
  | cons x xs ih => simp [ih]; ring

lemma sum_map_mul {α : Type} (l : List α) (c : ℝ) (f : α → ℝ) :
    (l.map (fun x => c * f x)).sum = c * (l.map f).sum := by
  induction l with
  | nil => simp
  | cons x xs ih => simp [ih]; ring

lemma sum_lin {α : Type} (l : List α) (f g : α → ℝ) (c d : ℝ) :
    (l.map (fun x => c * f x + d * g x)).sum = c * (l.map f).sum + d * (l.map g).sum := by
  rw [sum_map_add l (fun x => c * f x) (fun x => d * g x), sum_map_mul, sum_map_mul]

lemma sum_map_add_const (l : List ℝ) (k : ℝ) :
    (l.map (fun x => x + k)).sum = l.sum + l.length * k := by
  induction l with
  | nil => simp
  | cons x xs ih => simp [ih]; ring

lemma meanList_map_add (l : List ℝ) (k : ℝ) (h : l ≠ []) :
    meanList (l.map (fun x => x + k)) = meanList l + k := by
  rw [meanList, meanList, List.length_map, sum_map_add_const]
  have hn : (l.length : ℝ) ≠ 0 := Nat.cast_ne_zero.2 (List.length_pos.2 h).ne'
  field_simp
  ring

lemma meanList_map_mul (l : List ℝ) (c : ℝ) :
    meanList (l.map (fun x => c * x)) = c * meanList l := by
  rw [meanList, meanList, List.length_map, sum_map_mul l c (fun x => x)]
  simp only [List.map_id']
  ring

lemma meanList_pair_lin (s : List (ℝ × ℝ)) (c d : ℝ) :
    meanList (s.map (fun p => c * p.1 + d * p.2)) =
      c * meanList (s.map Prod.fst) + d * meanList (s.map Prod.snd) := by
  rw [meanList, meanList, meanList, List.length_map, List.length_map, List.length_map,
    sum_lin s Prod.fst Prod.snd c d]
  ring

lemma zip_self {α : Type} (l : List α) : l.zip l = l.map (fun x => (x, x)) := by
  induction l with
  | nil => rfl
  | cons x xs ih => simp [ih]

lemma zip_fst_sum (f : ℝ × ℝ → ℝ) : ∀ l1 l2 : List (ℝ × ℝ), l1.length = l2.length →
    ((l1.zip l2).map (fun q => f q.1)).sum = (l1.map f).sum
  | [], [], _ => by simp
  | [], _ :: _, h => by simp at h
  | _ :: _, [], h => by simp at h
  | x :: xs, y :: ys, h => by
    simp only [List.zip_cons_cons, List.map_cons, List.sum_cons]
    rw [zip_fst_sum f xs ys (by simpa using h)]

lemma zip_snd_sum (f : ℝ × ℝ → ℝ) : ∀ l1 l2 : List (ℝ × ℝ), l1.length = l2.length →
    ((l1.zip l2).map (fun q => f q.2)).sum = (l2.map f).sum
  | [], [], _ => by simp
  | [], _ :: _, h => by simp at h
  | _ :: _, [], h => by simp at h
  | x :: xs, y :: ys, h => by
    simp only [List.zip_cons_cons, List.map_cons, List.sum_cons]
    rw [zip_snd_sum f xs ys (by simpa using h)]

lemma resid_sum (θ : ℝ) (l : List ((ℝ × ℝ) × (ℝ × ℝ))) :
    (l.map (fun q => (q.1.1 - (Real.cos θ * q.2.1 - Real.sin θ * q.2.2)) ^ 2 +
        (q.1.2 - (Real.sin θ * q.2.1 + Real.cos θ * q.2.2)) ^ 2)).sum =
      (l.map (fun q => q.1.1 ^ 2 + q.1.2 ^ 2)).sum +
        (l.map (fun q => q.2.1 ^ 2 + q.2.2 ^ 2)).sum -
        2 * (Real.cos θ * (l.map (fun q => q.2.1 * q.1.1 + q.2.2 * q.1.2)).sum +
          Real.sin θ * (l.map (fun q => q.2.1 * q.1.2 - q.2.2 * q.1.1)).sum) := by
  induction l with
  | nil => simp
  | cons q xs ih =>
    simp only [List.map_cons, List.sum_cons]
    rw [ih]
    linear_combination (q.2.1 ^ 2 + q.2.2 ^ 2) * Real.sin_sq_add_cos_sq θ

lemma cos_sin_atan2 (y x : ℝ) :
    Real.cos (atan2 y x) * x + Real.sin (atan2 y x) * y = Real.sqrt (x ^ 2 + y ^ 2) := by
  by_cases h : (⟨x, y⟩ : ℂ) = 0
  · have hx : x = 0 := congrArg Complex.re h
    have hy : y = 0 := congrArg Complex.im h
    simp [hx, hy]
  · have habs : Complex.abs ⟨x, y⟩ = Real.sqrt (x ^ 2 + y ^ 2) := by
      rw [Complex.abs_apply, Complex.normSq_mk]
      congr 1
      ring
    have hcos : Real.cos (atan2 y x) = x / Real.sqrt (x ^ 2 + y ^ 2) := by
      rw [atan2, Complex.cos_arg h, habs]
    have hsin : Real.sin (atan2 y x) = y / Real.sqrt (x ^ 2 + y ^ 2) := by
      rw [atan2, Complex.sin_arg, habs]
    rw [hcos, hsin]
    have h2 : x / Real.sqrt (x ^ 2 + y ^ 2) * x + y / Real.sqrt (x ^ 2 + y ^ 2) * y =
        (x ^ 2 + y ^ 2) / Real.sqrt (x ^ 2 + y ^ 2) := by ring
    rw [h2, Real.div_sqrt]

lemma normalizeShape_length (s : List (ℝ × ℝ)) : (normalizeShape s).length = s.length := by
  simp [normalizeShape, centerShape]

/-- The residual the aligner returns, in closed form: the optimal angle
realizes the modulus of the cross-correlation. -/
lemma procrustes_closed (a b : List (ℝ × ℝ)) (hlen : a.length = b.length) :
    procrustes a b =
      Real.sqrt (sumSq (normalizeShape a) + sumSq (normalizeShape b) -
        2 * Real.sqrt (corrDen (normalizeShape a) (normalizeShape b) ^ 2 +
          corrNum (normalizeShape a) (normalizeShape b) ^ 2)) := by
  have hl1 : (normalizeShape a).length = (normalizeShape b).length := by
    rw [normalizeShape_length, normalizeShape_length, hlen]
  simp only [procrustes]
  congr 1
  rw [List.zip_map_right, List.map_map]
  have hcomp : ((normalizeShape a).zip (normalizeShape b)).map
        ((fun q : (ℝ × ℝ) × (ℝ × ℝ) => (q.1.1 - q.2.1) ^ 2 + (q.1.2 - q.2.2) ^ 2) ∘
          Prod.map id (rotatePt (atan2 (corrNum (normalizeShape a) (normalizeShape b))
            (corrDen (normalizeShape a) (normalizeShape b))))) =
      ((normalizeShape a).zip (normalizeShape b)).map
        (fun q => (q.1.1 - (Real.cos (atan2 (corrNum (normalizeShape a) (normalizeShape b))
              (corrDen (normalizeShape a) (normalizeShape b))) * q.2.1 -
            Real.sin (atan2 (corrNum (normalizeShape a) (normalizeShape b))
              (corrDen (normalizeShape a) (normalizeShape b))) * q.2.2)) ^ 2 +
          (q.1.2 - (Real.sin (atan2 (corrNum (normalizeShape a) (normalizeShape b))
              (corrDen (normalizeShape a) (normalizeShape b))) * q.2.1 +
            Real.cos (atan2 (corrNum (normalizeShape a) (normalizeShape b))
              (corrDen (normalizeShape a) (normalizeShape b))) * q.2.2)) ^ 2) := rfl
  rw [hcomp, resid_sum]
  rw [zip_fst_sum (fun p => p.1 ^ 2 + p.2 ^ 2) _ _ hl1,
    zip_snd_sum (fun p => p.1 ^ 2 + p.2 ^ 2) _ _ hl1]
  have hden : (((normalizeShape a).zip (normalizeShape b)).map
      (fun q => q.2.1 * q.1.1 + q.2.2 * q.1.2)).sum =
      corrDen (normalizeShape a) (normalizeShape b) := rfl
  have hnum : (((normalizeShape a).zip (normalizeShape b)).map
      (fun q => q.2.1 * q.1.2 - q.2.2 * q.1.1)).sum =
      corrNum (normalizeShape a) (normalizeShape b) := rfl
  rw [hden, hnum, cos_sin_atan2]
  rfl

lemma sumSq_nonneg (l : List (ℝ × ℝ)) : 0 ≤ sumSq l := by
  apply List.sum_nonneg
  intro x hx
  rcases List.mem_map.1 hx with ⟨p, _, rfl⟩
  positivity

lemma corrNum_self (l : List (ℝ × ℝ)) : corrNum l l = 0 := by
  rw [corrNum, zip_self, List.map_map,
    sum_congr_fun l _ (fun _ => (0 : ℝ)) (fun p => by dsimp [Function.comp]; ring)]
  simp

lemma corrDen_self (l : List (ℝ × ℝ)) : corrDen l l = sumSq l := by
  rw [corrDen, zip_self, List.map_map,
    sum_congr_fun l _ (fun p => p.1 ^ 2 + p.2 ^ 2) (fun p => by dsimp [Function.comp]; ring)]
  rfl

/-- C3: the Procrustes score is a square root, hence non-negative, and
aligning a non-degenerate shape with itself gives exactly 0. -/
theorem C3_procrustes_nonneg_self_zero :
    (∀ a b : List (ℝ × ℝ), 0 ≤ procrustes a b) ∧
    (∀ s : List (ℝ × ℝ), nondegenerate s → procrustes s s = 0) := by
  constructor
  · intro a b
    exact Real.sqrt_nonneg _
  · intro s _
    rw [procrustes_closed s s rfl, corrNum_self, corrDen_self]
    have hT : 0 ≤ sumSq (normalizeShape s) := sumSq_nonneg _
    rw [show sumSq (normalizeShape s) ^ 2 + (0 : ℝ) ^ 2 = sumSq (normalizeShape s) ^ 2 by
      ring, Real.sqrt_sq hT,
      show sumSq (normalizeShape s) + sumSq (normalizeShape s) -
        2 * sumSq (normalizeShape s) = 0 by ring, Real.sqrt_zero]

lemma shape0_nondeg : nondegenerate shape0 := by
  unfold nondegenerate rmsScale
  rw [Real.sqrt_ne_zero']
  norm_num [centerShape, meanList, shape0]

/-- C3 witness: a concrete non-degenerate shape. -/
theorem C3_procrustes_nonneg_self_zero_witness :
    0 ≤ procrustes shape0 shape0 ∧ procrustes shape0 shape0 = 0 :=
  ⟨C3_procrustes_nonneg_self_zero.1 shape0 shape0,
    C3_procrustes_nonneg_self_zero.2 shape0 shape0_nondeg⟩

lemma centerShape_translate (v : ℝ × ℝ) (s : List (ℝ × ℝ)) :
    centerShape (translateShape v s) = centerShape s := by
  rcases eq_or_ne s [] with rfl | hs
  · rfl
  · have hc1 : List.map (Prod.fst ∘ fun p : ℝ × ℝ => (p.1 + v.1, p.2 + v.2)) s =
        (s.map Prod.fst).map (fun x => x + v.1) := by
      rw [List.map_map]
      exact congrArg (fun F => List.map F s) (funext fun p => rfl)
    have hc2 : List.map (Prod.snd ∘ fun p : ℝ × ℝ => (p.1 + v.1, p.2 + v.2)) s =
        (s.map Prod.snd).map (fun x => x + v.2) := by
      rw [List.map_map]
      exact congrArg (fun F => List.map F s) (funext fun p => rfl)
    have hm1 : meanList (List.map (Prod.fst ∘ fun p : ℝ × ℝ => (p.1 + v.1, p.2 + v.2)) s) =
        meanList (s.map Prod.fst) + v.1 := by
      rw [hc1, meanList_map_add _ _ (by simpa using hs)]
    have hm2 : meanList (List.map (Prod.snd ∘ fun p : ℝ × ℝ => (p.1 + v.1, p.2 + v.2)) s) =
        meanList (s.map Prod.snd) + v.2 := by
      rw [hc2, meanList_map_add _ _ (by simpa using hs)]
    simp only [centerShape, translateShape, List.map_map]
    refine congrArg (fun F => List.map F s) (funext fun p => ?_)
    simp only [Function.comp_apply]
    rw [hm1, hm2]
    simp only [Prod.mk.injEq]
    exact ⟨by ring, by ring⟩

lemma normalizeShape_translate (v : ℝ × ℝ) (s : List (ℝ × ℝ)) :
    normalizeShape (translateShape v s) = normalizeShape s := by
  rw [normalizeShape, normalizeShape, centerShape_translate]

lemma centerShape_scale (c : ℝ) (s : List (ℝ × ℝ)) :
    centerShape (scaleShape c s) = scaleShape c (centerShape s) := by
  have hc1 : List.map (Prod.fst ∘ fun p : ℝ × ℝ => (c * p.1, c * p.2)) s =
      (s.map Prod.fst).map (fun x => c * x) := by
    rw [List.map_map]
    exact congrArg (fun F => List.map F s) (funext fun p => rfl)
  have hc2 : List.map (Prod.snd ∘ fun p : ℝ × ℝ => (c * p.1, c * p.2)) s =
      (s.map Prod.snd).map (fun x => c * x) := by
    rw [List.map_map]
    exact congrArg (fun F => List.map F s) (funext fun p => rfl)
  have hm1 : meanList (List.map (Prod.fst ∘ fun p : ℝ × ℝ => (c * p.1, c * p.2)) s) =
      c * meanList (s.map Prod.fst) := by
    rw [hc1, meanList_map_mul]
  have hm2 : meanList (List.map (Prod.snd ∘ fun p : ℝ × ℝ => (c * p.1, c * p.2)) s) =
      c * meanList (s.map Prod.snd) := by
    rw [hc2, meanList_map_mul]
  simp only [centerShape, scaleShape, List.map_map]
  refine congrArg (fun F => List.map F s) (funext fun p => ?_)
  simp only [Function.comp_apply]
  rw [hm1, hm2]
  simp only [Prod.mk.injEq]
  exact ⟨by ring, by ring⟩

lemma rmsScale_scale (c : ℝ) (hc : 0 ≤ c) (l : List (ℝ × ℝ)) :
    rmsScale (scaleShape c l) = c * rmsScale l := by
  rw [rmsScale, rmsScale, scaleShape, List.map_map, List.length_map]
  have hsum : (l.map ((fun p : ℝ × ℝ => p.1 ^ 2 + p.2 ^ 2) ∘ fun p => (c * p.1, c * p.2))).sum
      = (l.map (fun p => c ^ 2 * (p.1 ^ 2 + p.2 ^ 2))).sum :=
    sum_congr_fun l _ _ (fun p => by dsimp [Function.comp]; ring)
  rw [hsum, sum_map_mul l (c ^ 2) (fun p => p.1 ^ 2 + p.2 ^ 2)]
  rw [mul_div_assoc, Real.sqrt_mul (by positivity), Real.sqrt_sq hc]

lemma normalizeShape_scale (c : ℝ) (hc : 0 < c) (s : List (ℝ × ℝ)) :
    normalizeShape (scaleShape c s) = normalizeShape s := by
  rw [normalizeShape, normalizeShape, centerShape_scale, rmsScale_scale c hc.le]
  rw [scaleShape, List.map_map]
  refine congrArg (fun F => List.map F (centerShape s)) (funext fun p => ?_)
  simp only [Function.comp_apply, Prod.mk.injEq]
  exact ⟨mul_div_mul_left _ _ hc.ne', mul_div_mul_left _ _ hc.ne'⟩

lemma rotComp_fst (φ : ℝ) (s : List (ℝ × ℝ)) :
    List.map (Prod.fst ∘ rotatePt φ) s =
      s.map (fun p => Real.cos φ * p.1 + (-Real.sin φ) * p.2) :=
  congrArg (fun F => List.map F s) (funext fun p => by
    simp only [Function.comp_apply, rotatePt]
    ring)

lemma rotComp_snd (φ : ℝ) (s : List (ℝ × ℝ)) :
    List.map (Prod.snd ∘ rotatePt φ) s =
      s.map (fun p => Real.sin φ * p.1 + Real.cos φ * p.2) :=
  congrArg (fun F => List.map F s) (funext fun p => by
    simp only [Function.comp_apply, rotatePt])

lemma centerShape_rot (φ : ℝ) (s : List (ℝ × ℝ)) :
    centerShape (rotateShape φ s) = rotateShape φ (centerShape s) := by
  have hm1 : meanList (List.map (Prod.fst ∘ rotatePt φ) s) =
      Real.cos φ * meanList (s.map Prod.fst) + (-Real.sin φ) * meanList (s.map Prod.snd) := by
    rw [rotComp_fst, meanList_pair_lin]
  have hm2 : meanList (List.map (Prod.snd ∘ rotatePt φ) s) =
      Real.sin φ * meanList (s.map Prod.fst) + Real.cos φ * meanList (s.map Prod.snd) := by
    rw [rotComp_snd, meanList_pair_lin]
  simp only [centerShape, rotateShape, List.map_map]
  refine congrArg (fun F => List.map F s) (funext fun p => ?_)
  simp only [Function.comp_apply]
  rw [hm1, hm2]
  simp only [rotatePt, Prod.mk.injEq]
  exact ⟨by ring, by ring⟩

lemma rmsScale_rot (φ : ℝ) (l : List (ℝ × ℝ)) : rmsScale (rotateShape φ l) = rmsScale l := by
  rw [rmsScale, rmsScale, rotateShape, List.map_map, List.length_map]
  have hsum : (l.map ((fun p : ℝ × ℝ => p.1 ^ 2 + p.2 ^ 2) ∘ rotatePt φ)).sum =
      (l.map (fun p => p.1 ^ 2 + p.2 ^ 2)).sum :=
    sum_congr_fun l _ _ (fun p => by
      dsimp [Function.comp, rotatePt]
      linear_combination (p.1 ^ 2 + p.2 ^ 2) * Real.sin_sq_add_cos_sq φ)
  rw [hsum]

lemma normalizeShape_rot (φ : ℝ) (s : List (ℝ × ℝ)) :
    normalizeShape (rotateShape φ s) = rotateShape φ (normalizeShape s) := by
  rw [normalizeShape, normalizeShape, centerShape_rot, rmsScale_rot, rotateShape,
    rotateShape, List.map_map, List.map_map]
  refine congrArg (fun F => List.map F (centerShape s)) (funext fun p => ?_)
  simp only [Function.comp_apply, rotatePt, Prod.mk.injEq]
  exact ⟨by ring, by ring⟩

lemma sumSq_rot (φ : ℝ) (l : List (ℝ × ℝ)) : sumSq (rotateShape φ l) = sumSq l := by
  rw [sumSq, sumSq, rotateShape, List.map_map]
  exact sum_congr_fun l _ _ (fun p => by
    dsimp [Function.comp, rotatePt]
    linear_combination (p.1 ^ 2 + p.2 ^ 2) * Real.sin_sq_add_cos_sq φ)

lemma corrDen_rot_right (φ : ℝ) (A B : List (ℝ × ℝ)) :
    corrDen A (rotateShape φ B) =
      Real.cos φ * corrDen A B + Real.sin φ * corrNum A B := by
  rw [corrDen, rotateShape, List.zip_map_right, List.map_map]
  rw [sum_congr_fun (A.zip B) _
    (fun q => Real.cos φ * (q.2.1 * q.1.1 + q.2.2 * q.1.2) +
      Real.sin φ * (q.2.1 * q.1.2 - q.2.2 * q.1.1))
    (fun q => by dsimp [Function.comp, Prod.map, rotatePt]; ring)]
  rw [sum_lin (A.zip B) (fun q => q.2.1 * q.1.1 + q.2.2 * q.1.2)
    (fun q => q.2.1 * q.1.2 - q.2.2 * q.1.1) (Real.cos φ) (Real.sin φ)]
  rfl

lemma corrNum_rot_right (φ : ℝ) (A B : List (ℝ × ℝ)) :
    corrNum A (rotateShape φ B) =
      Real.cos φ * corrNum A B + (-Real.sin φ) * corrDen A B := by
  rw [corrNum, rotateShape, List.zip_map_right, List.map_map]
  rw [sum_congr_fun (A.zip B) _
    (fun q => Real.cos φ * (q.2.1 * q.1.2 - q.2.2 * q.1.1) +
      (-Real.sin φ) * (q.2.1 * q.1.1 + q.2.2 * q.1.2))
    (fun q => by dsimp [Function.comp, Prod.map, rotatePt]; ring)]
  rw [sum_lin (A.zip B) (fun q => q.2.1 * q.1.2 - q.2.2 * q.1.1)
    (fun q => q.2.1 * q.1.1 + q.2.2 * q.1.2) (Real.cos φ) (-Real.sin φ)]
  rfl

lemma corrDen_rot_left (φ : ℝ) (A B : List (ℝ × ℝ)) :
    corrDen (rotateShape φ A) B =
      Real.cos φ * corrDen A B + (-Real.sin φ) * corrNum A B := by
  rw [corrDen, rotateShape, List.zip_map_left, List.map_map]
  rw [sum_congr_fun (A.zip B) _
    (fun q => Real.cos φ * (q.2.1 * q.1.1 + q.2.2 * q.1.2) +
      (-Real.sin φ) * (q.2.1 * q.1.2 - q.2.2 * q.1.1))
    (fun q => by dsimp [Function.comp, Prod.map, rotatePt]; ring)]
  rw [sum_lin (A.zip B) (fun q => q.2.1 * q.1.1 + q.2.2 * q.1.2)
    (fun q => q.2.1 * q.1.2 - q.2.2 * q.1.1) (Real.cos φ) (-Real.sin φ)]
  rfl

lemma corrNum_rot_left (φ : ℝ) (A B : List (ℝ × ℝ)) :
    corrNum (rotateShape φ A) B =
      Real.sin φ * corrDen A B + Real.cos φ * corrNum A B := by
  rw [corrNum, rotateShape, List.zip_map_left, List.map_map]
  rw [sum_congr_fun (A.zip B) _
    (fun q => Real.sin φ * (q.2.1 * q.1.1 + q.2.2 * q.1.2) +
      Real.cos φ * (q.2.1 * q.1.2 - q.2.2 * q.1.1))
    (fun q => by dsimp [Function.comp, Prod.map, rotatePt]; ring)]
  rw [sum_lin (A.zip B) (fun q => q.2.1 * q.1.1 + q.2.2 * q.1.2)
    (fun q => q.2.1 * q.1.2 - q.2.2 * q.1.1) (Real.sin φ) (Real.cos φ)]
  rfl

/-- C4: the Procrustes score is unchanged, exactly, in real arithmetic,
when either input is translated by any vector, scaled by any positive
factor, or turned by any angle. -/
theorem C4_procrustes_invariance :
    ∀ a b : List (ℝ × ℝ), a.length = b.length → nondegenerate a → nondegenerate b →
      (∀ v, procrustes a (translateShape v b) = procrustes a b) ∧
      (∀ v, procrustes (translateShape v a) b = procrustes a b) ∧
      (∀ c, 0 < c → procrustes a (scaleShape c b) = procrustes a b) ∧
      (∀ c, 0 < c → procrustes (scaleShape c a) b = procrustes a b) ∧
      (∀ φ, procrustes a (rotateShape φ b) = procrustes a b) ∧
      (∀ φ, procrustes (rotateShape φ a) b = procrustes a b) := by
  intro a b hlen _ _
  refine ⟨fun v => ?_, fun v => ?_, fun c hc => ?_, fun c hc => ?_, fun φ => ?_, fun φ => ?_⟩
  · simp only [procrustes, normalizeShape_translate]
  · simp only [procrustes, normalizeShape_translate]
  · simp only [procrustes, normalizeShape_scale c hc]
  · simp only [procrustes, normalizeShape_scale c hc]
  · have hl2 : a.length = (rotateShape φ b).length := by
      simpa [rotateShape] using hlen
    rw [procrustes_closed a _ hl2, procrustes_closed a b hlen, normalizeShape_rot,
      corrDen_rot_right, corrNum_rot_right, sumSq_rot]
    have key : (Real.cos φ * corrDen (normalizeShape a) (normalizeShape b) +
          Real.sin φ * corrNum (normalizeShape a) (normalizeShape b)) ^ 2 +
        (Real.cos φ * corrNum (normalizeShape a) (normalizeShape b) +
          (-Real.sin φ) * corrDen (normalizeShape a) (normalizeShape b)) ^ 2 =
        corrDen (normalizeShape a) (normalizeShape b) ^ 2 +
          corrNum (normalizeShape a) (normalizeShape b) ^ 2 := by
      linear_combination (corrDen (normalizeShape a) (normalizeShape b) ^ 2 +
        corrNum (normalizeShape a) (normalizeShape b) ^ 2) * Real.sin_sq_add_cos_sq φ
    rw [key]
  · have hl2 : (rotateShape φ a).length = b.length := by
      simpa [rotateShape] using hlen
    rw [procrustes_closed _ b hl2, procrustes_closed a b hlen, normalizeShape_rot,
      corrDen_rot_left, corrNum_rot_left, sumSq_rot]
    have key : (Real.cos φ * corrDen (normalizeShape a) (normalizeShape b) +
          (-Real.sin φ) * corrNum (normalizeShape a) (normalizeShape b)) ^ 2 +
        (Real.sin φ * corrDen (normalizeShape a) (normalizeShape b) +
          Real.cos φ * corrNum (normalizeShape a) (normalizeShape b)) ^ 2 =
        corrDen (normalizeShape a) (normalizeShape b) ^ 2 +
          corrNum (normalizeShape a) (normalizeShape b) ^ 2 := by
      linear_combination (corrDen (normalizeShape a) (normalizeShape b) ^ 2 +
        corrNum (normalizeShape a) (normalizeShape b) ^ 2) * Real.sin_sq_add_cos_sq φ
    rw [key]

/-- C4 witness: concrete transforms of a concrete non-degenerate shape. -/
theorem C4_procrustes_invariance_witness :
    procrustes shape0 (translateShape (1, 2) shape0) = procrustes shape0 shape0 ∧
    procrustes shape0 (scaleShape 2 shape0) = procrustes shape0 shape0 ∧
    procrustes shape0 (rotateShape Real.pi shape0) = procrustes shape0 shape0 :=
  ⟨(C4_procrustes_invariance shape0 shape0 rfl shape0_nondeg shape0_nondeg).1 (1, 2),
    (C4_procrustes_invariance shape0 shape0 rfl shape0_nondeg shape0_nondeg).2.2.1 2
      (by norm_num),
    (C4_procrustes_invariance shape0 shape0 rfl shape0_nondeg shape0_nondeg).2.2.2.2.1
      Real.pi⟩

/-! Lemmas about the spectrum analyzer and the curvature analyzer. -/

lemma tangentAngles_length (d : List (ℝ × ℝ)) : (tangentAngles d).length = d.length := by
  simp [tangentAngles]

lemma rfft_length (x : List ℝ) : (rfft x).length = x.length / 2 + 1 := by
  rw [rfft, List.length_map, List.length_range]

lemma convC_length (p q : List ℂ) : (convC p q).length = p.length + q.length - 1 := by
  simp [convC]

lemma foldl_conv_length (roots : List ℂ) : ∀ acc : List ℂ, acc.length ≠ 0 →
    (roots.foldl (fun a r => convC a [1, -r]) acc).length = acc.length + roots.length := by
  induction roots with
  | nil =>
    intro acc _
    simp
  | cons r roots ih =>
    intro acc h
    rw [List.foldl_cons, ih (convC acc [1, -r]) (by rw [convC_length]; simp),
      convC_length]
    simp only [List.length_cons, List.length_nil]
    omega

lemma polyFromRoots_length (roots : List ℂ) :
    (polyFromRoots roots).length = roots.length + 1 := by
  rw [polyFromRoots, foldl_conv_length roots [1] (by simp)]
  simp [Nat.add_comm]

lemma butterB_length : butterB.length = 6 := by
  rw [butterB, List.length_map, polyFromRoots_length]
  simp

lemma butterA_length : butterA.length = 6 := by
  rw [butterA, List.length_map, polyFromRoots_length, butterDigitalPoles, List.length_map,
    butterAnalogPoles, List.length_map, List.length_range]

lemma curvatureList_length (d : List (ℝ × ℝ)) : (curvatureList d).length = d.length := by
  simp [curvatureList]

lemma curvature_isSome_iff (data : List (ℝ × ℝ)) :
    (curvature_index data).isSome = true ↔ 7 ≤ data.length := by
  have hlen3 : ((curvatureList data).reverse ++ curvatureList data ++
      (curvatureList data).reverse).length = 3 * data.length := by
    simp only [List.length_append, List.length_reverse, curvatureList_length]
    omega
  unfold curvature_index filtfilt
  rw [butterA_length, butterB_length, hlen3]
  simp only [Nat.max_self]
  split_ifs with h
  · simp
    omega
  · simp
    omega

/-- C9: the half-spectrum has ⌊N/2⌋+1 bins, bin 3 is in bounds exactly
when N ≥ 6, for N = 4 or N = 5 the bin-3 reads are out of bounds, and a
repetition whose spectrum is too short for writerow dies with an
IndexError instead of emitting a row. -/
theorem C9_fourier_bins_bounds :
    ∀ data : List (ℝ × ℝ),
      ((fourier_analysis data).1.length = data.length / 2 + 1 ∧
        (fourier_analysis data).2.1.length = data.length / 2 + 1 ∧
        (fourier_analysis data).2.2.length = data.length / 2 + 1) ∧
      (3 < data.length / 2 + 1 ↔ 6 ≤ data.length) ∧
      (data.length = 4 ∨ data.length = 5 →
        (fourier_analysis data).1.get? 3 = none ∧
        (fourier_analysis data).2.1.get? 3 = none ∧
        (fourier_analysis data).2.2.get? 3 = none) ∧
      (∀ (cfg : Cfg) (idn sym : String) (rdata : Option Table) (t : Table) (rep : ℕ)
        (rest : List ℕ),
        isNan (sumVals (tableVals (sliceT t (2 * rep)))) = false →
        ¬ fourGood (cfg.fF (sliceT t (2 * rep))) →
        repLoop cfg idn sym rdata t (rep :: rest) = ([], some Err.idxOut)) := by
  intro data
  have hlen : (rfft (tangentAngles data)).length = data.length / 2 + 1 := by
    rw [rfft_length, tangentAngles_length]
  have hl1 : (fourier_analysis data).1.length = data.length / 2 + 1 := by
    rw [fourier_analysis, List.length_map, hlen]
  have hl2 : (fourier_analysis data).2.1.length = data.length / 2 + 1 := by
    rw [fourier_analysis, List.length_map, hlen]
  have hl3 : (fourier_analysis data).2.2.length = data.length / 2 + 1 := by
    rw [fourier_analysis, List.length_map, hlen]
  refine ⟨⟨hl1, hl2, hl3⟩, by omega, fun h45 => ?_,
    fun cfg idn sym rdata t rep rest h1 h2 =>
      repLoop_cons_err cfg idn sym rdata t rep rest h1 h2⟩
  have h3 : data.length / 2 + 1 ≤ 3 := by
    rcases h45 with h | h <;> rw [h]
  exact ⟨List.get?_eq_none.2 (by rw [hl1]; omega),
    List.get?_eq_none.2 (by rw [hl2]; omega),
    List.get?_eq_none.2 (by rw [hl3]; omega)⟩

/-- C9 witness: the four-point shape has a three-bin half-spectrum and
its bin-3 reads are out of bounds. -/
theorem C9_fourier_bins_bounds_witness :
    (fourier_analysis shape4).1.get? 3 = none ∧
    (fourier_analysis shape4).2.1.get? 3 = none ∧
    (fourier_analysis shape4).2.2.get? 3 = none :=
  (C9_fourier_bins_bounds shape4).2.2.1 (Or.inl rfl)

/-- C10: butter(5, 0.25) has six coefficients in each list, so filtfilt
demands a signal longer than 18; the mirror-padded curvature signal has
length 3N, hence curvature_index is defined exactly for N ≥ 7 and
raises for every shorter shape, including the admissible 4 ≤ N ≤ 6. -/
theorem C10_curvature_length_bound :
    ∀ data : List (ℝ × ℝ),
      (butterB.length = 6 ∧ butterA.length = 6) ∧
      ((curvature_index data).isSome = true ↔ 7 ≤ data.length) ∧
      (4 ≤ data.length → data.length ≤ 6 → curvature_index data = none) := by
  intro data
  refine ⟨⟨butterB_length, butterA_length⟩, curvature_isSome_iff data, fun _ h6 => ?_⟩
  have hiff := curvature_isSome_iff data
  rcases hopt : curvature_index data with _ | x
  · rfl
  · rw [hopt] at hiff
    simp at hiff
    omega

/-- C10 witness: a five-point shape is rejected by the filter stage. -/
theorem C10_curvature_length_bound_witness : curvature_index shape5 = none :=
  (C10_curvature_length_bound shape5).2.2 (by simp [shape5]) (by simp [shape5])

/-! Lemmas about degenerate geometry (C8). -/

lemma meanList_replicate (n : ℕ) (c : ℝ) (h : 0 < n) :
    meanList (List.replicate n c) = c := by
  rw [meanList, List.sum_replicate, List.length_replicate, nsmul_eq_mul]
  have hn : (n : ℝ) ≠ 0 := Nat.cast_ne_zero.2 h.ne'
  field_simp

lemma rmsScale_replicate (n : ℕ) (p : ℝ × ℝ) (h : 0 < n) :
    rmsScale (centerShape (List.replicate n p)) = 0 := by
  have hc : centerShape (List.replicate n p) = List.replicate n (0, 0) := by
    rw [centerShape, List.map_replicate, List.map_replicate, List.map_replicate,
      meanList_replicate n p.1 h, meanList_replicate n p.2 h]
    simp
  rw [hc, rmsScale, List.map_replicate, List.sum_replicate, List.length_replicate]
  simp

lemma getD_replicate (n : ℕ) (c : ℝ) (j : ℕ) (h : j < n) :
    (List.replicate n c).getD j 0 = c := by
  induction n generalizing j with
  | zero => omega
  | succ m ih =>
    rcases j with _ | j
    · rfl
    · simp only [List.replicate_succ, List.getD_cons_succ]
      exact ih j (by omega)

lemma npGradient_replicate (n : ℕ) (c : ℝ) :
    npGradient (List.replicate n c) = List.replicate n 0 := by
  rw [npGradient, List.length_replicate]
  have hz : ∀ i ∈ List.range n,
      (if n ≤ 1 then (0 : ℝ)
       else if i = 0 then (List.replicate n c).getD 1 0 - (List.replicate n c).getD 0 0
       else if i = n - 1 then
         (List.replicate n c).getD i 0 - (List.replicate n c).getD (i - 1) 0
       else ((List.replicate n c).getD (i + 1) 0 - (List.replicate n c).getD (i - 1) 0) / 2)
        = 0 := by
    intro i hi
    have hin : i < n := List.mem_range.1 hi
    rcases le_or_lt n 1 with h1 | h1
    · rw [if_pos h1]
    · rw [if_neg (by omega)]
      by_cases h0 : i = 0
      · rw [if_pos h0, getD_replicate n c 1 (by omega), getD_replicate n c 0 (by omega)]
        ring
      · rw [if_neg h0]
        by_cases hl : i = n - 1
        · rw [if_pos hl, getD_replicate n c i hin, getD_replicate n c (i - 1) (by omega)]
          ring
        · rw [if_neg hl, getD_replicate n c (i + 1) (by omega),
            getD_replicate n c (i - 1) (by omega)]
          ring
  rw [List.map_congr_left hz]
  simp [List.map_const']

/-- C8: degenerate geometry is not intercepted: all points coincident
means the aligner's scale divisor is exactly 0 (its division by zero
happens), every local speed in the curvature formula is 0, yet
curvature_index still returns a value for any long-enough shape, and the
driver emits the row of any NaN-free slice with whatever the analyzers
returned, with no finiteness check between computation and emission. -/
theorem C8_degenerate_propagates :
    (∀ (n : ℕ) (p : ℝ × ℝ), 0 < n → rmsScale (centerShape (List.replicate n p)) = 0) ∧
    (∀ (n : ℕ) (c : ℝ), npGradient (List.replicate n c) = List.replicate n 0) ∧
    (∀ (n : ℕ) (p : ℝ × ℝ), 7 ≤ n → (curvature_index (List.replicate n p)).isSome = true) ∧
    (∀ (cfg : Cfg) (idn sym : String) (rdata : Option Table) (t : Table) (rep : ℕ)
      (rest : List ℕ),
      isNan (sumVals (tableVals (sliceT t (2 * rep)))) = false →
      fourGood (cfg.fF (sliceT t (2 * rep))) →
      repLoop cfg idn sym rdata t (rep :: rest) =
        (mkRow cfg idn sym rdata t rep :: (repLoop cfg idn sym rdata t rest).1,
          (repLoop cfg idn sym rdata t rest).2)) :=
  ⟨fun n p h => rmsScale_replicate n p h,
    fun n c => npGradient_replicate n c,
    fun n p h7 => (curvature_isSome_iff _).2 (by simpa using h7),
    fun cfg idn sym rdata t rep rest h1 h2 =>
      repLoop_cons_emit cfg idn sym rdata t rep rest h1 h2⟩

/-- C8 witness: an eight-point constant shape and a concrete NaN-free
repetition. -/
theorem C8_degenerate_propagates_witness :
    rmsScale (centerShape (List.replicate 8 ((1 : ℝ), (1 : ℝ)))) = 0 ∧
    npGradient (List.replicate 8 (1 : ℝ)) = List.replicate 8 0 ∧
    (curvature_index (List.replicate 8 ((1 : ℝ), (1 : ℝ)))).isSome = true ∧
    repLoop cfgc "P" "TT" none tblBTT (0 :: []) =
      (mkRow cfgc "P" "TT" none tblBTT 0 :: (repLoop cfgc "P" "TT" none tblBTT []).1,
        (repLoop cfgc "P" "TT" none tblBTT []).2) :=
  ⟨C8_degenerate_propagates.1 8 (1, 1) (by norm_num),
    C8_degenerate_propagates.2.1 8 1,
    C8_degenerate_propagates.2.2.1 8 (1, 1) (by norm_num),
    C8_degenerate_propagates.2.2.2 cfgc "P" "TT" none tblBTT 0 [] (by decide)
      (⟨by decide, by decide, by decide⟩ : fourGood (L4, L4, L4))⟩
